import Mathlib

/-
  Verification development for the CaptureKit transition engine.

  Shallow embedding of the transition catalog, the in-memory transition
  graph (TransitionManager, a JS Map from clip id to transition record),
  the store-integration layer (saveTransitionToStore and friends from
  transitions-integration.js), the store monitor (TransitionsStoreMonitor
  from the unnamed source part_001), and the canvas preview renderer
  (applyTransitionEffect), together with theorems settling the frozen
  claims about them.

  Conventions of the embedding:
  - JS numbers are modelled as rationals; NaN and the infinities are not
    representable and are noted where a claim mentions them.
  - JS object fields irrelevant to every claim (name, icon, description,
    the free-form parameters bag, createdAt) are omitted from the records.
  - crypto.randomUUID() is modelled by a strictly increasing Nat counter,
    which captures exactly the freshness of the generated ids.
  - A JS Map is modelled as an association list in key-insertion order:
    set updates an existing key in place or appends, delete removes the
    entry, and values() lists the entries in order, as JS Maps do.
-/

namespace CaptureKit

/-- A catalog transition type: id, display category and default duration
(seconds), as defined by the TRANSITION_TYPES object literal. -/
structure TransitionType where
  id : String
  category : String
  defaultDuration : ℚ
deriving DecidableEq

/-- The TRANSITION_TYPES registry: object keys paired with the entries,
in source order. -/
def TRANSITION_TYPES : List (String × TransitionType) := [
  ("CROSSFADE",     ⟨"crossfade",   "fade",   1⟩),
  ("FADE_TO_BLACK", ⟨"fadeToBlack", "fade",   1⟩),
  ("FADE_TO_WHITE", ⟨"fadeToWhite", "fade",   1⟩),
  ("WIPE_LEFT",     ⟨"wipeLeft",    "wipe",   4/5⟩),
  ("WIPE_RIGHT",    ⟨"wipeRight",   "wipe",   4/5⟩),
  ("WIPE_UP",       ⟨"wipeUp",      "wipe",   4/5⟩),
  ("WIPE_DOWN",     ⟨"wipeDown",    "wipe",   4/5⟩),
  ("SLIDE_LEFT",    ⟨"slideLeft",   "slide",  7/10⟩),
  ("SLIDE_RIGHT",   ⟨"slideRight",  "slide",  7/10⟩),
  ("SLIDE_UP",      ⟨"slideUp",     "slide",  7/10⟩),
  ("SLIDE_DOWN",    ⟨"slideDown",   "slide",  7/10⟩),
  ("ZOOM_IN",       ⟨"zoomIn",      "zoom",   4/5⟩),
  ("ZOOM_OUT",      ⟨"zoomOut",     "zoom",   4/5⟩),
  ("PIXELATE",      ⟨"pixelate",    "effect", 3/5⟩),
  ("BLUR",          ⟨"blur",        "effect", 4/5⟩),
  ("MIRROR",        ⟨"mirror",      "effect", 7/10⟩),
  ("CIRCLE_OPEN",   ⟨"circleOpen",  "shape",  1⟩),
  ("CIRCLE_CLOSE",  ⟨"circleClose", "shape",  1⟩),
  ("DIAMOND",       ⟨"diamond",     "shape",  4/5⟩)]

/-- The ids the catalog lists (the id field of every TRANSITION_TYPES entry). -/
def catalogIds : List String := TRANSITION_TYPES.map (fun e => e.2.id)

/-- Property access TRANSITION_TYPES[k]: lookup by object key. -/
def lookupTypeKey (k : String) : Option TransitionType :=
  (TRANSITION_TYPES.find? (fun e => e.1 = k)).map (fun e => e.2)

/-- String.prototype.toUpperCase on the ASCII type ids: uppercase every
character (structural definition so that proofs can evaluate it). -/
def jsToUpper (s : String) : String := ⟨s.data.map Char.toUpper⟩

/-- JS numeric short-circuit v || d, with an absent value as none:
undefined and 0 are falsy and yield the default. -/
def jsOr (v : Option ℚ) (d : ℚ) : ℚ :=
  match v with
  | none => d
  | some x => if x = 0 then d else x

/-- JS numeric short-circuit for a plain (always present) argument. -/
def jsOrNum (v d : ℚ) : ℚ := if v = 0 then d else v

/-- A transition instance as built by the code: the uuid is modelled by a
Nat counter; parameters and createdAt are omitted. -/
structure TransitionData where
  id : Nat
  fromClipId : String
  toClipId : String
  type : String
  duration : ℚ
deriving DecidableEq

/-- A JS Map from clip id to transition record, as an association list in
key-insertion order. -/
abbrev TMap := List (String × TransitionData)

/-- Map.set: update the existing entry for the key in place, else append. -/
def mapSet (m : TMap) (k : String) (v : TransitionData) : TMap :=
  if m.any (fun e => e.1 = k) then
    m.map (fun e => if e.1 = k then (k, v) else e)
  else
    m ++ [(k, v)]

/-- Map.get: the value at the key, if present. -/
def mapLookup (m : TMap) (k : String) : Option TransitionData :=
  (m.find? (fun e => e.1 = k)).map (fun e => e.2)

/-- Map.delete: drop the entry for the key. -/
def mapDelete (m : TMap) (k : String) : TMap :=
  m.filter (fun e => ¬ e.1 = k)

/-- Map.values: the stored records in key-insertion order (a record held
under two keys appears once per key). -/
def mapValues (m : TMap) : List TransitionData := m.map (fun e => e.2)

/-- The TransitionManager state: its transitions Map and the uuid counter. -/
structure Manager where
  transitions : TMap
  nextId : Nat
deriving DecidableEq

def managerInit : Manager := ⟨[], 0⟩

/-- The error message of a failed call, for stating rejection results
(an equality on Except values themselves has no derived decidability). -/
def errorOf {a : Type} (e : Except String a) : Option String :=
  match e with
  | Except.error s => some s
  | Except.ok _ => none

/-- TransitionManager.addTransition: resolves the type by uppercasing the
argument and indexing TRANSITION_TYPES by object key, throws on a miss,
otherwise builds the record with duration (options.duration || default)
and sets it under both endpoint keys. It removes nothing. -/
def addTransition (m : Manager) (fromClipId toClipId ty : String)
    (optDuration : Option ℚ) : Except String (Manager × TransitionData) :=
  match lookupTypeKey (jsToUpper ty) with
  | none => Except.error ("Unknown transition type: " ++ ty)
  | some tt =>
    let t : TransitionData :=
      ⟨m.nextId, fromClipId, toClipId, ty, jsOr optDuration tt.defaultDuration⟩
    Except.ok (⟨mapSet (mapSet m.transitions fromClipId t) toClipId t, m.nextId + 1⟩, t)

/-- TransitionManager.removeTransition: look up the clip id; if a record
is found delete both of its endpoint keys and report true. -/
def removeTransition (m : Manager) (clipId : String) : Manager × Bool :=
  match mapLookup m.transitions clipId with
  | some t =>
    (⟨mapDelete (mapDelete m.transitions t.fromClipId) t.toClipId, m.nextId⟩, true)
  | none => (m, false)

/-- TransitionManager.getTransition. -/
def getTransition (m : Manager) (clipId : String) : Option TransitionData :=
  mapLookup m.transitions clipId

/-- TransitionManager.exportTransitions: Array.from(map.values()). -/
def exportTransitions (m : Manager) : List TransitionData :=
  mapValues m.transitions

/-- TransitionManager.importTransitions: clear, then set each record under
its fromClipId and then its toClipId, in list order. -/
def importTransitions (m : Manager) (data : List TransitionData) : Manager :=
  ⟨data.foldl (fun acc t => mapSet (mapSet acc t.fromClipId t) t.toClipId t) [],
   m.nextId⟩

/-- A clip as the sync layer reads it: id and duration in seconds. -/
structure Clip where
  id : String
  duration : ℚ
deriving DecidableEq

/-- A track: its ordered clip list (only clips matter to these claims). -/
structure Track where
  clips : List Clip
deriving DecidableEq

/-- The external project store: ordered tracks and the transitions list. -/
structure Store where
  tracks : List Track
  transitions : List TransitionData
deriving DecidableEq

/-- The removal predicate of saveTransitionToStore and
removeTransitionFromStore: the record matches the clip pair in either
direction (the unordered endpoint pair coincides). -/
def sameEndpoints (t : TransitionData) (fromId toId : String) : Prop :=
  (t.fromClipId = fromId ∧ t.toClipId = toId) ∨
  (t.fromClipId = toId ∧ t.toClipId = fromId)

instance (t : TransitionData) (fromId toId : String) :
    Decidable (sameEndpoints t fromId toId) := by
  unfold sameEndpoints; infer_instance

/-- Combined state of the inline integration script: the located store and
the shared TransitionManager it mirrors writes into. -/
structure Integration where
  store : Store
  manager : Manager
deriving DecidableEq

def integrationInit : Integration := ⟨⟨[], []⟩, managerInit⟩

/-- getTransitionBetween from transitions-integration.js: the first stored
record whose ordered endpoints are exactly (aId, bId). -/
def getTransitionBetween (s : Integration) (aId bId : String) : Option TransitionData :=
  s.store.transitions.find? (fun t => t.fromClipId = aId ∧ t.toClipId = bId)

/-- saveTransitionToStore (store available): drop stored records matching
the unordered pair, append the new record with duration (duration || 1.0),
and mirror it into the manager Map under both endpoints. -/
def saveTransitionToStore (s : Integration) (fromId toId ty : String) (dur : ℚ) :
    Integration × TransitionData :=
  let t : TransitionData := ⟨s.manager.nextId, fromId, toId, ty, jsOrNum dur 1⟩
  let kept := s.store.transitions.filter (fun u => ¬ sameEndpoints u fromId toId)
  (⟨⟨s.store.tracks, kept ++ [t]⟩,
    ⟨mapSet (mapSet s.manager.transitions fromId t) toId t, s.manager.nextId + 1⟩⟩,
   t)

/-- removeTransitionFromStore: symmetric removal from the stored list and
deletion of both clip keys from the manager Map. -/
def removeTransitionFromStore (s : Integration) (fromId toId : String) : Integration :=
  ⟨⟨s.store.tracks, s.store.transitions.filter (fun u => ¬ sameEndpoints u fromId toId)⟩,
   ⟨mapDelete (mapDelete s.manager.transitions fromId) toId, s.manager.nextId⟩⟩

/-- The graph mutations of the claims: the two store-integration writes
and the two TransitionManager operations. -/
inductive GraphOp where
  | storeAdd (fromId toId ty : String) (dur : ℚ)
  | storeRemove (fromId toId : String)
  | mgrAdd (fromId toId ty : String) (dur : Option ℚ)
  | mgrRemove (clipId : String)

def applyOp (s : Integration) (op : GraphOp) : Integration :=
  match op with
  | .storeAdd f t ty d => (saveTransitionToStore s f t ty d).1
  | .storeRemove f t => removeTransitionFromStore s f t
  | .mgrAdd f t ty d =>
    match addTransition s.manager f t ty d with
    | .ok (m, _) => ⟨s.store, m⟩
    | .error _ => s
  | .mgrRemove c => ⟨s.store, (removeTransition s.manager c).1⟩

def runOps (ops : List GraphOp) : Integration :=
  ops.foldl applyOp integrationInit

/-- The clip found for an operation, with the clip that follows it in its
track (if any), as findClipInProject computes it. -/
structure ClipCtx where
  clip : Clip
  nextClip : Option Clip
deriving DecidableEq

/-- Scan one track clip list for the id; the next clip is the successor
in the same track. -/
def findInTrack (clips : List Clip) (clipId : String) : Option ClipCtx :=
  match clips with
  | [] => none
  | c :: rest =>
    if c.id = clipId then some ⟨c, rest.head?⟩
    else findInTrack rest clipId

/-- findClipInProject: first track containing the clip wins. -/
def findClipInTracks (tracks : List Track) (clipId : String) : Option ClipCtx :=
  match tracks with
  | [] => none
  | tr :: rest =>
    match findInTrack tr.clips clipId with
    | some r => some r
    | none => findClipInTracks rest clipId

/-- A queued pending operation of the store monitor: the from-clip id, the
type string and the options object (only its duration field matters). -/
structure PendingOp where
  clipId : String
  ty : String
  duration : Option ℚ
deriving DecidableEq

/-- TransitionsStoreMonitor.addTransitionToProject: find the clip and its
successor (no change when either is missing), clamp the duration to half
the shorter neighbour, remove every stored record touching the from-clip,
and append the new record. Returns the bumped uuid counter. -/
def addTransitionToProject (nextId : Nat) (st : Store) (op : PendingOp) : Nat × Store :=
  match findClipInTracks st.tracks op.clipId with
  | none => (nextId, st)
  | some ctx =>
    match ctx.nextClip with
    | none => (nextId, st)
    | some nclip =>
      let maxDuration := min ctx.clip.duration nclip.duration / 2
      let duration := min (jsOr op.duration 1) maxDuration
      let kept := st.transitions.filter
        (fun t => ¬ (t.fromClipId = op.clipId ∨ t.toClipId = op.clipId))
      (nextId + 1,
       ⟨st.tracks, kept ++ [⟨nextId, op.clipId, nclip.id, op.ty, duration⟩]⟩)

/-- The monitor state: the FIFO pending queue, the last topology snapshot
(none before the first tick) and the uuid counter. -/
structure Monitor where
  pending : List PendingOp
  lastSnapshot : Option (List (List String))
  nextId : Nat
deriving DecidableEq

/-- The structural content of the JSON topology digest: for every track,
its clip ids in order. Two digest strings are equal exactly when these
lists are equal. -/
def computeSnapshot (st : Store) : List (List String) :=
  st.tracks.map (fun tr => tr.clips.map (fun c => c.id))

/-- Drain the pending queue in FIFO order, applying each operation. -/
def drainPending (nextId : Nat) (st : Store) (ops : List PendingOp) : Nat × Store :=
  match ops with
  | [] => (nextId, st)
  | op :: rest =>
    let r := addTransitionToProject nextId st op
    drainPending r.1 r.2 rest

/-- One poll tick's outcome: the monitor state, the store as left behind,
and whether the topology-changed signal fired. -/
structure TickOut where
  monitor : Monitor
  store : Store
  signaled : Bool
deriving DecidableEq

/-- One tick of TransitionsStoreMonitor.startMonitoring with the store
located: flush the queue, compute the topology snapshot, and signal (and
record the snapshot) only when it differs from the last one. -/
def pollTickAvail (m : Monitor) (st : Store) : TickOut :=
  let r := drainPending m.nextId st m.pending
  let snap := computeSnapshot r.2
  if some snap = m.lastSnapshot then
    ⟨⟨[], m.lastSnapshot, r.1⟩, r.2, false⟩
  else
    ⟨⟨[], some snap, r.1⟩, r.2, true⟩

/-- One tick with possibly-absent store: an unavailable store is a no-op. -/
def pollTick (m : Monitor) (st : Option Store) : Monitor × Option Store × Bool :=
  match st with
  | none => (m, none, false)
  | some s =>
    let r := pollTickAvail m s
    (r.monitor, some r.store, r.signaled)

/-- A canvas fill style as used by the preview: the two clip-simulating
gradients set up by renderTransitionPreview, or an rgba() literal. -/
inductive FillStyle where
  | fromGrad
  | toGrad
  | rgba (r g b : Nat) (a : ℚ)
deriving DecidableEq

/-- The two composite operations the renderer sets. -/
inductive CompOp where
  | srcOver
  | destIn
deriving DecidableEq

/-- The 2D-context calls applyTransitionEffect issues. -/
inductive Cmd where
  | setFill (s : FillStyle)
  | setAlpha (a : ℚ)
  | setComp (op : CompOp)
  | fillRect (x y w h : ℚ)
  | save
  | restore
  | translate (dx dy : ℚ)
  | scale (sx sy : ℚ)
  | beginPath
  | arc (cx cy r : ℚ)
  | fillPath
deriving DecidableEq

/-- The clamp at the top of applyTransitionEffect. -/
def clampProgress (q : ℚ) : ℚ := max 0 (min 1 q)

/-- The crossfade drawing sequence; the default branch issues it too. -/
def crossfadeCmds (p w h : ℚ) : List Cmd :=
  [.setFill .fromGrad, .fillRect 0 0 w h,
   .setAlpha p, .setFill .toGrad, .fillRect 0 0 w h, .setAlpha 1]

/-- TransitionManager.applyTransitionEffect: the drawing commands the
switch issues for the type, after clamping the progress into the unit
interval. Unknown types take the default (crossfade) branch. -/
def applyTransitionEffect (ty : String) (progress w h : ℚ) : List Cmd :=
  let p := clampProgress progress
  if ty = "crossfade" then crossfadeCmds p w h
  else if ty = "fadeToBlack" then
    if p < 1/2 then
      [.setFill .fromGrad, .fillRect 0 0 w h,
       .setFill (.rgba 0 0 0 (p * 2)), .fillRect 0 0 w h]
    else
      [.setFill .toGrad, .fillRect 0 0 w h,
       .setFill (.rgba 0 0 0 ((1 - p) * 2)), .fillRect 0 0 w h]
  else if ty = "fadeToWhite" then
    if p < 1/2 then
      [.setFill .fromGrad, .fillRect 0 0 w h,
       .setFill (.rgba 255 255 255 (p * 2)), .fillRect 0 0 w h]
    else
      [.setFill .toGrad, .fillRect 0 0 w h,
       .setFill (.rgba 255 255 255 ((1 - p) * 2)), .fillRect 0 0 w h]
  else if ty = "wipeLeft" then
    [.setFill .fromGrad, .fillRect 0 0 w h,
     .setFill .toGrad, .fillRect (w * (1 - p)) 0 (w * p) h]
  else if ty = "wipeRight" then
    [.setFill .fromGrad, .fillRect 0 0 w h,
     .setFill .toGrad, .fillRect 0 0 (w * p) h]
  else if ty = "wipeUp" then
    [.setFill .fromGrad, .fillRect 0 0 w h,
     .setFill .toGrad, .fillRect 0 (h * (1 - p)) w (h * p)]
  else if ty = "wipeDown" then
    [.setFill .fromGrad, .fillRect 0 0 w h,
     .setFill .toGrad, .fillRect 0 0 w (h * p)]
  else if ty = "slideLeft" then
    [.save, .translate (-(w * p)) 0, .setFill .fromGrad, .fillRect 0 0 w h, .restore,
     .save, .translate (w * (1 - p)) 0, .setFill .toGrad, .fillRect 0 0 w h, .restore]
  else if ty = "slideRight" then
    [.save, .translate (w * p) 0, .setFill .fromGrad, .fillRect 0 0 w h, .restore,
     .save, .translate (-(w * (1 - p))) 0, .setFill .toGrad, .fillRect 0 0 w h, .restore]
  else if ty = "zoomIn" then
    [.setFill .fromGrad, .fillRect 0 0 w h,
     .save, .translate (w / 2) (h / 2),
     .scale (1/10 + 9/10 * p) (1/10 + 9/10 * p),
     .translate (-(w / 2)) (-(h / 2)),
     .setAlpha p, .setFill .toGrad, .fillRect 0 0 w h, .restore, .setAlpha 1]
  else if ty = "zoomOut" then
    [.setFill .toGrad, .fillRect 0 0 w h,
     .save, .translate (w / 2) (h / 2),
     .scale (1 - 9/10 * p) (1 - 9/10 * p),
     .translate (-(w / 2)) (-(h / 2)),
     .setFill .fromGrad, .fillRect 0 0 w h, .restore]
  else if ty = "circleOpen" then
    [.setFill .fromGrad, .fillRect 0 0 w h,
     .setComp .destIn, .beginPath, .arc (w / 2) (h / 2) (max w h * p), .fillPath,
     .setComp .srcOver, .setFill .toGrad, .fillRect 0 0 w h]
  else if ty = "circleClose" then
    [.setFill .toGrad, .fillRect 0 0 w h,
     .setComp .destIn, .beginPath, .arc (w / 2) (h / 2) (max w h * (1 - p)), .fillPath,
     .setComp .srcOver]
  else crossfadeCmds p w h

/-- A pixel value, premultiplied, over an abstract pigment basis: the
from-gradient, the to-gradient, black and white, plus coverage alpha. -/
structure Color where
  cf : ℚ
  ct : ℚ
  ck : ℚ
  cw : ℚ
  ca : ℚ
deriving DecidableEq

def Color.scale (c : Color) (q : ℚ) : Color :=
  ⟨c.cf * q, c.ct * q, c.ck * q, c.cw * q, c.ca * q⟩

def Color.add (c d : Color) : Color :=
  ⟨c.cf + d.cf, c.ct + d.ct, c.ck + d.ck, c.cw + d.cw, c.ca + d.ca⟩

/-- The unpremultiplied pigment of a fill style (its alpha separate). -/
def styleVec : FillStyle → Color
  | .fromGrad => ⟨1, 0, 0, 0, 1⟩
  | .toGrad => ⟨0, 1, 0, 0, 1⟩
  | .rgba r g b _ =>
    ⟨0, 0, if r = 0 ∧ g = 0 ∧ b = 0 then 1 else 0,
     if r = 255 ∧ g = 255 ∧ b = 255 then 1 else 0, 1⟩

/-- The intrinsic alpha of a fill style. -/
def styleAlpha : FillStyle → ℚ
  | .fromGrad => 1
  | .toGrad => 1
  | .rgba _ _ _ a => a

/-- Graphics state the renderer manipulates: fill style, global alpha,
composite op, and an axis-aligned transform taking user coordinates u to
device coordinates sx * u + tx (the source only translates and scales). -/
structure Gfx where
  fill : FillStyle
  alpha : ℚ
  comp : CompOp
  sx : ℚ
  sy : ℚ
  tx : ℚ
  ty : ℚ
deriving DecidableEq

def gfxInit : Gfx := ⟨.rgba 0 0 0 1, 1, .srcOver, 1, 1, 0, 0⟩

/-- Whether the device pixel (x, y) lies in the device image of the user
rectangle (rx, ry, rw, rh) under the transform (sx, sy, tx, ty); the
transforms the source issues always have positive scale. -/
def rectCovers (sx sy tx ty rx ry rw rh x y : ℚ) : Prop :=
  sx * rx + tx ≤ x ∧ x < sx * rx + tx + sx * rw ∧
  sy * ry + ty ≤ y ∧ y < sy * ry + ty + sy * rh

instance (sx sy tx ty rx ry rw rh x y : ℚ) :
    Decidable (rectCovers sx sy tx ty rx ry rw rh x y) := by
  unfold rectCovers; infer_instance

/-- Whether the device pixel (x, y) lies in the device image of the disk
of centre (cx, cy) and radius r, the inequality cleared of divisions. -/
def diskCovers (sx sy tx ty cx cy r x y : ℚ) : Prop :=
  ((x - tx) - sx * cx) ^ 2 * sy ^ 2 + ((y - ty) - sy * cy) ^ 2 * sx ^ 2 ≤
    (r * sx * sy) ^ 2

instance (sx sy tx ty cx cy r x y : ℚ) :
    Decidable (diskCovers sx sy tx ty cx cy r x y) := by
  unfold diskCovers; infer_instance

/-- Evaluation state at one pixel: graphics state, the save stack, the
current path (the single arc the source ever builds), and the pixel. -/
structure EvalSt where
  g : Gfx
  stack : List Gfx
  path : Option (ℚ × ℚ × ℚ)
  color : Color

/-- Composite one fill of the current style over the pixel. With
source-over an uncovered pixel is untouched; with destination-in the
destination is kept scaled by the source alpha where covered and erased
elsewhere, as the canvas composite rule prescribes. -/
def applyFill (st : EvalSt) (covered : Prop) [Decidable covered] : Color :=
  let ae := st.g.alpha * styleAlpha st.g.fill
  match st.g.comp with
  | .srcOver =>
    if covered then ((styleVec st.g.fill).scale ae).add (st.color.scale (1 - ae))
    else st.color
  | .destIn =>
    if covered then st.color.scale ae else st.color.scale 0

/-- Whether the current path covers the pixel (an empty path covers none). -/
def pathCovers (g : Gfx) (p : Option (ℚ × ℚ × ℚ)) (x y : ℚ) : Prop :=
  match p with
  | none => False
  | some q => diskCovers g.sx g.sy g.tx g.ty q.1 q.2.1 q.2.2 x y

instance (g : Gfx) (p : Option (ℚ × ℚ × ℚ)) (x y : ℚ) :
    Decidable (pathCovers g p x y) :=
  match p with
  | none => isFalse (fun hc => hc)
  | some q => inferInstanceAs (Decidable (diskCovers g.sx g.sy g.tx g.ty q.1 q.2.1 q.2.2 x y))

/-- One 2D-context call, evaluated at the device pixel (x, y). -/
def step (x y : ℚ) (st : EvalSt) (c : Cmd) : EvalSt :=
  match c with
  | .setFill s => { st with g := { st.g with fill := s } }
  | .setAlpha a => { st with g := { st.g with alpha := a } }
  | .setComp op => { st with g := { st.g with comp := op } }
  | .save => { st with stack := st.g :: st.stack }
  | .restore =>
    match st.stack with
    | [] => st
    | g :: rest => { st with g := g, stack := rest }
  | .translate dx dy =>
    { st with g := { st.g with tx := st.g.tx + st.g.sx * dx, ty := st.g.ty + st.g.sy * dy } }
  | .scale sx sy => { st with g := { st.g with sx := st.g.sx * sx, sy := st.g.sy * sy } }
  | .fillRect rx ry rw rh =>
    { st with color :=
        applyFill st (rectCovers st.g.sx st.g.sy st.g.tx st.g.ty rx ry rw rh x y) }
  | .beginPath => { st with path := none }
  | .arc cx cy r => { st with path := some (cx, cy, r) }
  | .fillPath => { st with color := applyFill st (pathCovers st.g st.path x y) }

/-- The colour the command list leaves at the device pixel (x, y),
starting from a cleared canvas. -/
def evalPixel (cmds : List Cmd) (x y : ℚ) : Color :=
  (cmds.foldl (step x y) ⟨gfxInit, [], none, ⟨0, 0, 0, 0, 0⟩⟩).color

/-- The preview pixel for a type, progress and surface size. -/
def renderPixel (ty : String) (progress w h x y : ℚ) : Color :=
  evalPixel (applyTransitionEffect ty progress w h) x y

/-- An opaque pixel showing only the from region. -/
def pureFrom : Color := ⟨1, 0, 0, 0, 1⟩

/-- An opaque pixel showing only the to region. -/
def pureTo : Color := ⟨0, 1, 0, 0, 1⟩

/-- The clip layout of the duration-clamp scenario: neighbours of 4s and 1s. -/
def clampClips : Store := ⟨[⟨[⟨"A", 4⟩, ⟨"B", 1⟩]⟩], []⟩

/-- The graph state after add(A,B,t1) then add(B,C,t2) through the inline
integration (store write plus manager mirror). -/
def c1State : Integration :=
  (saveTransitionToStore (saveTransitionToStore integrationInit "A" "B" "crossfade" 1).1
    "B" "C" "crossfade" 1).1

/-- The type strings the applyTransitionEffect switch handles with a
dedicated case. -/
def handledTypes : List String :=
  ["crossfade", "fadeToBlack", "fadeToWhite", "wipeLeft", "wipeRight",
   "wipeUp", "wipeDown", "slideLeft", "slideRight", "zoomIn", "zoomOut",
   "circleOpen", "circleClose"]

/-- Two records connect the same unordered endpoint pair. -/
def sameUPair (t u : TransitionData) : Prop :=
  (t.fromClipId = u.fromClipId ∧ t.toClipId = u.toClipId) ∨
  (t.fromClipId = u.toClipId ∧ t.toClipId = u.fromClipId)

instance (t u : TransitionData) : Decidable (sameUPair t u) := by
  unfold sameUPair; infer_instance

/-- Every key of the map is one of the endpoints of its record. -/
def keysOk (mm : TMap) : Prop :=
  ∀ k t, mapLookup mm k = some t → k = t.fromClipId ∨ k = t.toClipId

/-- No two distinct records of the map connect the same unordered pair. -/
def mapUPairUnique (mm : TMap) : Prop :=
  ∀ k1 k2 t1 t2, mapLookup mm k1 = some t1 → mapLookup mm k2 = some t2 →
    sameUPair t1 t2 → t1 = t2

/-- No two records of the store list connect the same unordered pair. -/
def storeUPairUnique (l : List TransitionData) : Prop :=
  l.Pairwise (fun a b => ¬ sameUPair a b)

def InvState (s : Integration) : Prop :=
  keysOk s.manager.transitions ∧ mapUPairUnique s.manager.transitions ∧
  storeUPairUnique s.store.transitions

/-- One step of importTransitions: set the record under both endpoints. -/
def importStep (acc : TMap) (t : TransitionData) : TMap :=
  mapSet (mapSet acc t.fromClipId t) t.toClipId t

/-- The record occupies the key (the key is one of its endpoints, in the
order the two set calls of the import loop probe it). -/
def touches (k : String) (t : TransitionData) : Prop :=
  k = t.toClipId ∨ k = t.fromClipId

instance (k : String) (t : TransitionData) : Decidable (touches k t) := by
  unfold touches; infer_instance

/-- The last record of the list occupying the key, if any: the record
whose writes win at that key during the rebuild loop. -/
def lastTouch (k : String) : List TransitionData → Option TransitionData
  | [] => none
  | t :: rest =>
    match lastTouch k rest with
    | some u => some u
    | none => if touches k t then some t else none

/-- Every key of the map carries a record having that key as an endpoint
(true of every reachable map: entries are only written at endpoints). -/
def keysAtEndpoints (mm : TMap) : Prop :=
  ∀ e ∈ mm, e.1 = e.2.fromClipId ∨ e.1 = e.2.toClipId

/-- No orphaned half-edges: every stored record is readable under both of
its endpoints. -/
def orphanFree (mm : TMap) : Prop :=
  ∀ e ∈ mm, mapLookup mm e.2.fromClipId = some e.2 ∧
    mapLookup mm e.2.toClipId = some e.2

instance (mm : TMap) : Decidable (keysAtEndpoints mm) := by
  unfold keysAtEndpoints; infer_instance

instance (mm : TMap) : Decidable (orphanFree mm) := by
  unfold orphanFree; infer_instance

/-- The reachable graph state add(A,B), add(C,D), add(A,C) on which the
export/import roundtrip is not the identity. -/
def c9State : Manager :=
  (runOps [.mgrAdd "A" "B" "crossfade" none, .mgrAdd "C" "D" "crossfade" none,
    .mgrAdd "A" "C" "crossfade" none]).manager

/-! Theorems. -/

/-- C2 (code bug): wipeLeft and fadeToBlack are listed in the catalog,
yet addTransition rejects both with UnknownType, because it uppercases
the id and indexes the registry by its snake-case object keys. -/
theorem c2_catalog_ids_rejected :
    "wipeLeft" ∈ catalogIds ∧ "fadeToBlack" ∈ catalogIds ∧
    errorOf (addTransition managerInit "A" "B" "wipeLeft" none) =
      some "Unknown transition type: wipeLeft" ∧
    errorOf (addTransition managerInit "A" "B" "fadeToBlack" none) =
      some "Unknown transition type: fadeToBlack" ∧
    (addTransition managerInit "A" "B" "crossfade" none).isOk = true := by
  decide

/-- C8 counterexample: a requested duration of -1 (non-positive) is not
replaced by the crossfade default of 1: the stored duration is -1. -/
theorem c8_counterexample :
    (addTransition managerInit "A" "B" "crossfade" (some (-1))).toOption.map
        (fun r => r.2.duration) = some (-1) ∧
    lookupTypeKey "CROSSFADE" = some ⟨"crossfade", "fade", 1⟩ ∧
    ((-1 : ℚ) ≠ (1 : ℚ)) := by
  decide

/-- C8 amended: a non-positive requested duration never causes rejection;
a requested duration of exactly 0 falls back to the type default, while a
negative one is stored unchanged (duration is options.duration || default). -/
theorem c8_amended_nonpositive_not_rejected (m : Manager) (a b ty : String)
    (tt : TransitionType) (d : ℚ)
    (hres : lookupTypeKey (jsToUpper ty) = some tt) (hd : d ≤ 0) :
    ∃ m2 t, addTransition m a b ty (some d) = Except.ok (m2, t) ∧
      t.duration = (if d = 0 then tt.defaultDuration else d) := by
  unfold addTransition
  rw [hres]
  exact ⟨_, _, rfl, rfl⟩

/-- Witness for the amended C8 statement at duration -1. -/
theorem c8_amended_witness :
    ∃ m2 t, addTransition managerInit "A" "B" "crossfade" (some (-1)) =
        Except.ok (m2, t) ∧
      t.duration = (if (-1 : ℚ) = 0 then (1 : ℚ) else (-1 : ℚ)) :=
  c8_amended_nonpositive_not_rejected managerInit "A" "B" "crossfade"
    ⟨"crossfade", "fade", 1⟩ (-1) (by decide) (by norm_num)

/-- C5 counterexample: saveTransitionToStore is a place where a duration
is set, yet with neighbouring clips of 4s and 1s and a requested duration
of 3s it stores 3, not min 3 (min 4 1 / 2) = 0.5. -/
theorem c5_counterexample :
    (saveTransitionToStore ⟨clampClips, managerInit⟩ "A" "B" "crossfade" 3).2.duration
        = 3 ∧
    ((3 : ℚ) ≠ min 3 (min 4 1 / 2)) := by
  refine ⟨by decide, by norm_num⟩

/-- C5 amended: on the store-monitor path the clamp does hold: for any
adjacent clips and any nonzero requested duration, the stored duration is
min requested (min of the two clip durations / 2). -/
theorem c5_amended_monitor_clamps (a b ty : String) (df dt r : ℚ) (hr : r ≠ 0) :
    (addTransitionToProject 0 ⟨[⟨[⟨a, df⟩, ⟨b, dt⟩]⟩], []⟩ ⟨a, ty, some r⟩).2.transitions
      = [⟨0, a, b, ty, min r (min df dt / 2)⟩] := by
  simp [addTransitionToProject, findClipInTracks, findInTrack, jsOr, hr]

/-- Witness for the amended C5 statement: 4s and 1s clips, requested 3s. -/
theorem c5_amended_witness :
    (addTransitionToProject 0 ⟨[⟨[⟨"A", (4 : ℚ)⟩, ⟨"B", (1 : ℚ)⟩]⟩], []⟩
        ⟨"A", "crossfade", some 3⟩).2.transitions
      = [⟨0, "A", "B", "crossfade", min 3 (min 4 1 / 2)⟩] :=
  c5_amended_monitor_clamps "A" "B" "crossfade" 4 1 3 (by norm_num)

/-- C4 counterexample: with clips A, B, C in one track and the queue
holding (A, fade) then (B, wipeLeft), the tick that reconnects drains in
FIFO order but leaves only the (B, C) transition: applying the second
operation removed the (A, B) record because it touches clip B. -/
theorem c4_counterexample :
    (pollTickAvail ⟨[⟨"A", "fade", none⟩, ⟨"B", "wipeLeft", none⟩], none, 0⟩
        ⟨[⟨[⟨"A", 4⟩, ⟨"B", 4⟩, ⟨"C", 4⟩]⟩], []⟩).store.transitions.map
      (fun t => (t.fromClipId, t.toClipId, t.type)) = [("B", "C", "wipeLeft")] := by
  decide

/-- C4 amended: the queue is drained in FIFO order on the reconnecting
tick, but the (a, b) transition written by the first operation is removed
while the second is applied, so the store afterwards holds exactly the
(b, c) transition. -/
theorem c4_amended_fifo_with_removal (a b c tyA tyB : String) (da db dc : ℚ)
    (hab : a ≠ b) :
    (pollTickAvail ⟨[⟨a, tyA, none⟩, ⟨b, tyB, none⟩], none, 0⟩
        ⟨[⟨[⟨a, da⟩, ⟨b, db⟩, ⟨c, dc⟩]⟩], []⟩).store.transitions
      = [⟨1, b, c, tyB, min 1 (min db dc / 2)⟩] := by
  simp [pollTickAvail, drainPending, addTransitionToProject, findClipInTracks,
    findInTrack, jsOr, hab]

/-- Witness for the amended C4 statement. -/
theorem c4_amended_witness :
    (pollTickAvail ⟨[⟨"A", "fade", none⟩, ⟨"B", "wipeLeft", none⟩], none, 0⟩
        ⟨[⟨[⟨"A", (4 : ℚ)⟩, ⟨"B", (4 : ℚ)⟩, ⟨"C", (4 : ℚ)⟩]⟩], []⟩).store.transitions
      = [⟨1, "B", "C", "wipeLeft", min 1 (min 4 4 / 2)⟩] :=
  c4_amended_fifo_with_removal "A" "B" "C" "fade" "wipeLeft" 4 4 4 (by decide)

/-- C1 counterexample: after add(A,B,t1) then add(B,C,t2), get(B) is the
t2 instance, but getBetween(A,B) is not none (it still returns t1), the
lookup by endpoint A still yields t1, and t1 is still in the stored list. -/
theorem c1_counterexample :
    getTransition c1State.manager "B" = some ⟨1, "B", "C", "crossfade", 1⟩ ∧
    getTransitionBetween c1State "A" "B" ≠ none ∧
    getTransitionBetween c1State "A" "B" = some ⟨0, "A", "B", "crossfade", 1⟩ ∧
    getTransition c1State.manager "A" = some ⟨0, "A", "B", "crossfade", 1⟩ ∧
    c1State.store.transitions =
      [⟨0, "A", "B", "crossfade", 1⟩, ⟨1, "B", "C", "crossfade", 1⟩] := by
  decide

/-- C1 amended: adding a transition removes from the store only a prior
record with the same unordered pair and overwrites the manager keys at
its own endpoints; after add(a,b) then add(b,c), get(b) is the second
instance, but getBetween(a,b) still returns the first and the lookup by
endpoint a still yields it, as does the stored list. -/
theorem c1_amended_half_edge_persists (a b c ty1 ty2 : String) (d1 d2 : ℚ)
    (hab : a ≠ b) (hbc : b ≠ c) (hac : a ≠ c) :
    getTransition ((saveTransitionToStore
        (saveTransitionToStore integrationInit a b ty1 d1).1 b c ty2 d2).1).manager b
      = some ⟨1, b, c, ty2, jsOrNum d2 1⟩ ∧
    getTransition ((saveTransitionToStore
        (saveTransitionToStore integrationInit a b ty1 d1).1 b c ty2 d2).1).manager a
      = some ⟨0, a, b, ty1, jsOrNum d1 1⟩ ∧
    getTransitionBetween ((saveTransitionToStore
        (saveTransitionToStore integrationInit a b ty1 d1).1 b c ty2 d2).1) a b
      = some ⟨0, a, b, ty1, jsOrNum d1 1⟩ ∧
    ((saveTransitionToStore
        (saveTransitionToStore integrationInit a b ty1 d1).1 b c ty2 d2).1).store.transitions
      = [⟨0, a, b, ty1, jsOrNum d1 1⟩, ⟨1, b, c, ty2, jsOrNum d2 1⟩] := by
  simp [saveTransitionToStore, integrationInit, managerInit, getTransition,
    getTransitionBetween, mapSet, mapLookup, sameEndpoints, List.find?,
    hab, hbc, hac, Ne.symm hab, Ne.symm hbc, Ne.symm hac]

/-- Witness for the amended C1 statement. -/
theorem c1_amended_witness :
    getTransition ((saveTransitionToStore
        (saveTransitionToStore integrationInit "A" "B" "fade" 1).1 "B" "C" "wipe" 2).1).manager "B"
      = some ⟨1, "B", "C", "wipe", jsOrNum 2 1⟩ ∧
    getTransition ((saveTransitionToStore
        (saveTransitionToStore integrationInit "A" "B" "fade" 1).1 "B" "C" "wipe" 2).1).manager "A"
      = some ⟨0, "A", "B", "fade", jsOrNum 1 1⟩ ∧
    getTransitionBetween ((saveTransitionToStore
        (saveTransitionToStore integrationInit "A" "B" "fade" 1).1 "B" "C" "wipe" 2).1) "A" "B"
      = some ⟨0, "A", "B", "fade", jsOrNum 1 1⟩ ∧
    ((saveTransitionToStore
        (saveTransitionToStore integrationInit "A" "B" "fade" 1).1 "B" "C" "wipe" 2).1).store.transitions
      = [⟨0, "A", "B", "fade", jsOrNum 1 1⟩, ⟨1, "B", "C", "wipe", jsOrNum 2 1⟩] :=
  c1_amended_half_edge_persists "A" "B" "C" "fade" "wipe" 1 2
    (by decide) (by decide) (by decide)

/-- After a tick with the store available the queue is empty and the last
snapshot records the topology of the store the tick left behind. -/
theorem pollTickAvail_post (m : Monitor) (st : Store) :
    (pollTickAvail m st).monitor.pending = [] ∧
    (pollTickAvail m st).monitor.lastSnapshot =
      some (computeSnapshot (pollTickAvail m st).store) := by
  by_cases h :
      some (computeSnapshot (drainPending m.nextId st m.pending).2) = m.lastSnapshot
  · simp [pollTickAvail, if_pos h, ← h]
  · simp [pollTickAvail, if_neg h]

/-- A tick whose queue is empty and whose last snapshot matches the store
does nothing: it keeps the store, keeps the snapshot and stays silent. -/
theorem pollTickAvail_stable (m2 : Monitor) (st2 : Store)
    (h1 : m2.pending = []) (h2 : m2.lastSnapshot = some (computeSnapshot st2)) :
    pollTickAvail m2 st2 = ⟨⟨[], m2.lastSnapshot, m2.nextId⟩, st2, false⟩ := by
  simp only [pollTickAvail, h1, drainPending]
  rw [if_pos h2.symm]

/-- C7: a second tick on an unchanged store computes the same topology
snapshot, leaves the store untouched (no writes: its pending queue was
emptied by the first tick) and fires no topology-changed signal. -/
theorem c7_second_tick_is_silent (m : Monitor) (st : Store) :
    pollTickAvail (pollTickAvail m st).monitor (pollTickAvail m st).store =
      ⟨⟨[], (pollTickAvail m st).monitor.lastSnapshot,
        (pollTickAvail m st).monitor.nextId⟩,
       (pollTickAvail m st).store, false⟩ ∧
    (pollTickAvail m st).monitor.lastSnapshot =
      some (computeSnapshot (pollTickAvail m st).store) := by
  obtain ⟨hp, hs⟩ := pollTickAvail_post m st
  exact ⟨pollTickAvail_stable _ _ hp hs, hs⟩

theorem clampProgress_idem (q : ℚ) :
    clampProgress (clampProgress q) = clampProgress q := by
  have h0 : 0 ≤ clampProgress q := le_max_left 0 _
  have h1 : clampProgress q ≤ 1 := max_le (by norm_num) (min_le_left 1 q)
  show max 0 (min 1 (clampProgress q)) = clampProgress q
  rw [min_eq_right h1, max_eq_right h0]

/-- C10: rendering is total on all progress values and on all type
strings: the drawing commands for any progress equal those for the value
clamped into the unit interval, and any type string outside the switch
cases draws the default, the crossfade commands, rather than failing. -/
theorem c10_render_total_and_clamped (ty : String) (progress w h : ℚ) :
    applyTransitionEffect ty progress w h =
      applyTransitionEffect ty (clampProgress progress) w h ∧
    (ty ∉ handledTypes →
      applyTransitionEffect ty progress w h =
        applyTransitionEffect "crossfade" progress w h) := by
  constructor
  · simp only [applyTransitionEffect, clampProgress_idem]
  · intro hmem
    simp only [handledTypes, List.mem_cons, List.not_mem_nil, or_false, not_or] at hmem
    obtain ⟨h1, h2, h3, h4, h5, h6, h7, h8, h9, h10, h11, h12, h13⟩ := hmem
    simp [applyTransitionEffect, h1, h2, h3, h4, h5, h6, h7, h8, h9, h10,
      h11, h12, h13]

/-- Witness for C10 at an unknown type and an out-of-range progress. -/
theorem c10_witness :
    applyTransitionEffect "sparkle" (3/2) 5 4 =
      applyTransitionEffect "sparkle" (clampProgress (3/2)) 5 4 ∧
    applyTransitionEffect "sparkle" (3/2) 5 4 =
      applyTransitionEffect "crossfade" (3/2) 5 4 :=
  ⟨(c10_render_total_and_clamped "sparkle" (3/2) 5 4).1,
   (c10_render_total_and_clamped "sparkle" (3/2) 5 4).2 (by decide)⟩

/-! Map lemmas: the association list behaves like a JS Map. -/

theorem mapLookup_nil (k : String) : mapLookup [] k = none := rfl

theorem mapLookup_cons (e : String × TransitionData) (l : TMap) (k : String) :
    mapLookup (e :: l) k = if e.1 = k then some e.2 else mapLookup l k := by
  by_cases h : e.1 = k
  · simp [mapLookup, List.find?_cons_of_pos, h]
  · simp [mapLookup, List.find?_cons_of_neg, h]

/-- Replacing the entries of an absent key changes no lookup. -/
theorem mapLookup_map_other (l : TMap) (k k2 : String) (v : TransitionData)
    (hne : k2 ≠ k) :
    mapLookup (l.map (fun e => if e.1 = k then (k, v) else e)) k2 = mapLookup l k2 := by
  induction l with
  | nil => rfl
  | cons e rest ih =>
    by_cases he : e.1 = k
    · rw [List.map_cons, if_pos he, mapLookup_cons, mapLookup_cons,
        if_neg (fun hc : (k, v).1 = k2 => hne hc.symm),
        if_neg (he ▸ fun hc : e.1 = k2 => hne (hc ▸ he.symm ▸ rfl)), ih]
    · rw [List.map_cons, if_neg he, mapLookup_cons, mapLookup_cons]
      by_cases he2 : e.1 = k2
      · rw [if_pos he2, if_pos he2]
      · rw [if_neg he2, if_neg he2, ih]

theorem mapLookup_map_replace (l : TMap) (k : String) (v : TransitionData)
    (hmem : l.any (fun e => e.1 = k) = true) :
    mapLookup (l.map (fun e => if e.1 = k then (k, v) else e)) k = some v := by
  induction l with
  | nil => simp at hmem
  | cons e rest ih =>
    by_cases he : e.1 = k
    · rw [List.map_cons, if_pos he, mapLookup_cons, if_pos rfl]
    · rw [List.any_cons, decide_eq_false he, Bool.false_or] at hmem
      rw [List.map_cons, if_neg he, mapLookup_cons, if_neg he, ih hmem]

theorem mapLookup_append_single (l : TMap) (k k2 : String) (v : TransitionData)
    (hmem : l.any (fun e => e.1 = k) = false) :
    mapLookup (l ++ [(k, v)]) k2 = if k2 = k then some v else mapLookup l k2 := by
  induction l with
  | nil =>
    by_cases h : k2 = k
    · rw [List.nil_append, mapLookup_cons, if_pos (h ▸ rfl), if_pos h]
    · rw [List.nil_append, mapLookup_cons, if_neg (fun hc : (k, v).1 = k2 => h hc.symm),
        if_neg h]
  | cons e rest ih =>
    simp only [List.any_cons, Bool.or_eq_false_iff, decide_eq_false_iff_not] at hmem
    obtain ⟨he, hrest⟩ := hmem
    rw [List.cons_append, mapLookup_cons, mapLookup_cons]
    by_cases he2 : e.1 = k2
    · rw [if_pos he2, if_pos he2, if_neg (fun hc : k2 = k => he (he2.trans hc))]
    · rw [if_neg he2, if_neg he2, ih hrest]

/-- Map.set then Map.get: the new key reads the new value, other keys are
untouched. -/
theorem mapLookup_set (m : TMap) (k k2 : String) (v : TransitionData) :
    mapLookup (mapSet m k v) k2 = if k2 = k then some v else mapLookup m k2 := by
  unfold mapSet
  by_cases hmem : m.any (fun e => e.1 = k) = true
  · rw [if_pos hmem]
    by_cases h : k2 = k
    · rw [if_pos h, h, mapLookup_map_replace m k v hmem]
    · rw [if_neg h, mapLookup_map_other m k k2 v h]
  · rw [if_neg hmem, mapLookup_append_single m k k2 v
      (by simp only [Bool.not_eq_true] at hmem; exact hmem)]

/-- Map.delete then Map.get: the deleted key reads none, others untouched. -/
theorem mapLookup_delete (m : TMap) (k k2 : String) :
    mapLookup (mapDelete m k) k2 = if k2 = k then none else mapLookup m k2 := by
  induction m with
  | nil => simp [mapDelete, mapLookup]
  | cons e rest ih =>
    unfold mapDelete at ih ⊢
    rw [List.filter_cons]
    by_cases he : e.1 = k
    · rw [if_neg (by simp [he]), ih]
      by_cases h : k2 = k
      · rw [if_pos h, if_pos h]
      · rw [if_neg h, if_neg h, mapLookup_cons,
          if_neg (he ▸ fun hc : e.1 = k2 => h (hc ▸ he.symm ▸ rfl))]
    · rw [if_pos (by simp [he]), mapLookup_cons, mapLookup_cons, ih]
      by_cases he2 : e.1 = k2
      · rw [if_pos he2, if_pos he2, if_neg (fun hc : k2 = k => he (he2.trans hc))]
      · rw [if_neg he2, if_neg he2]

/-! Unordered-pair uniqueness invariant (C6). -/

theorem sameUPair_symm {t u : TransitionData} (h : sameUPair t u) : sameUPair u t := by
  rcases h with ⟨h1, h2⟩ | ⟨h1, h2⟩
  · exact Or.inl ⟨h1.symm, h2.symm⟩
  · exact Or.inr ⟨h2.symm, h1.symm⟩

theorem keysOk_set2 (mm : TMap) (t : TransitionData) (h : keysOk mm) :
    keysOk (mapSet (mapSet mm t.fromClipId t) t.toClipId t) := by
  intro k u hu
  rw [mapLookup_set, mapLookup_set] at hu
  by_cases h1 : k = t.toClipId
  · rw [if_pos h1] at hu
    cases hu
    exact Or.inr h1
  · rw [if_neg h1] at hu
    by_cases h2 : k = t.fromClipId
    · rw [if_pos h2] at hu
      cases hu
      exact Or.inl h2
    · rw [if_neg h2] at hu
      exact h k u hu

theorem mapUPairUnique_set2 (mm : TMap) (t : TransitionData)
    (hk : keysOk mm) (hu : mapUPairUnique mm) :
    mapUPairUnique (mapSet (mapSet mm t.fromClipId t) t.toClipId t) := by
  have key : ∀ k u, mapLookup (mapSet (mapSet mm t.fromClipId t) t.toClipId t) k
      = some u → u = t ∨ ((¬ k = t.toClipId) ∧ (¬ k = t.fromClipId) ∧
        mapLookup mm k = some u) := by
    intro k u hget
    rw [mapLookup_set, mapLookup_set] at hget
    by_cases h1 : k = t.toClipId
    · rw [if_pos h1] at hget
      cases hget
      exact Or.inl rfl
    · rw [if_neg h1] at hget
      by_cases h2 : k = t.fromClipId
      · rw [if_pos h2] at hget
        cases hget
        exact Or.inl rfl
      · rw [if_neg h2] at hget
        exact Or.inr ⟨h1, h2, hget⟩
  intro k1 k2 t1 t2 h1 h2 hs
  rcases key k1 t1 h1 with he1 | ⟨hn1a, hn1b, ho1⟩ <;>
    rcases key k2 t2 h2 with he2 | ⟨hn2a, hn2b, ho2⟩
  · exact he1.trans he2.symm
  · -- t1 is the new record, t2 an untouched old one: its key would have to
    -- be one of the new record's endpoints, which were both overwritten.
    exfalso
    subst he1
    rcases hk k2 t2 ho2 with hk2 | hk2 <;>
      rcases hs with ⟨ha, hb⟩ | ⟨ha, hb⟩ <;>
      simp_all
  · exfalso
    subst he2
    rcases hk k1 t1 ho1 with hk1 | hk1 <;>
      rcases hs with ⟨ha, hb⟩ | ⟨ha, hb⟩ <;>
      simp_all
  · exact hu k1 k2 t1 t2 ho1 ho2 hs

theorem keysOk_delete (mm : TMap) (k : String) (h : keysOk mm) :
    keysOk (mapDelete mm k) := by
  intro k2 u hu
  rw [mapLookup_delete] at hu
  by_cases hk : k2 = k
  · rw [if_pos hk] at hu
    cases hu
  · rw [if_neg hk] at hu
    exact h k2 u hu

theorem mapUPairUnique_delete (mm : TMap) (k : String) (h : mapUPairUnique mm) :
    mapUPairUnique (mapDelete mm k) := by
  intro k1 k2 t1 t2 h1 h2 hs
  rw [mapLookup_delete] at h1 h2
  by_cases hk1 : k1 = k
  · rw [if_pos hk1] at h1
    cases h1
  · rw [if_neg hk1] at h1
    by_cases hk2 : k2 = k
    · rw [if_pos hk2] at h2
      cases h2
    · rw [if_neg hk2] at h2
      exact h k1 k2 t1 t2 h1 h2 hs

theorem storeUPairUnique_filter (l : List TransitionData)
    (p : TransitionData → Bool) (h : storeUPairUnique l) :
    storeUPairUnique (l.filter p) :=
  h.sublist (List.filter_sublist l)

/-- Filtering out the unordered pair of the new record and appending it
preserves pairwise distinctness of unordered pairs. -/
theorem storeUPairUnique_save (l : List TransitionData) (t : TransitionData)
    (h : storeUPairUnique l) :
    storeUPairUnique
      ((l.filter (fun u => ¬ sameEndpoints u t.fromClipId t.toClipId)) ++ [t]) := by
  rw [storeUPairUnique, List.pairwise_append]
  refine ⟨storeUPairUnique_filter l _ h, List.pairwise_singleton _ _, ?_⟩
  intro a ha b hb
  rw [List.mem_singleton] at hb
  subst hb
  rw [List.mem_filter, decide_eq_true_eq] at ha
  exact fun hc => ha.2 hc

theorem inv_applyOp (s : Integration) (op : GraphOp) (h : InvState s) :
    InvState (applyOp s op) := by
  obtain ⟨hk, hu, hs⟩ := h
  cases op with
  | storeAdd f t0 ty d =>
    simp only [applyOp, saveTransitionToStore]
    exact ⟨keysOk_set2 _ ⟨s.manager.nextId, f, t0, ty, jsOrNum d 1⟩ hk,
      mapUPairUnique_set2 _ ⟨s.manager.nextId, f, t0, ty, jsOrNum d 1⟩ hk hu,
      storeUPairUnique_save s.store.transitions
        ⟨s.manager.nextId, f, t0, ty, jsOrNum d 1⟩ hs⟩
  | storeRemove f t0 =>
    simp only [applyOp, removeTransitionFromStore]
    exact ⟨keysOk_delete _ _ (keysOk_delete _ _ hk),
      mapUPairUnique_delete _ _ (mapUPairUnique_delete _ _ hu),
      storeUPairUnique_filter _ _ hs⟩
  | mgrAdd f t0 ty d =>
    cases hl : lookupTypeKey (jsToUpper ty) with
    | none =>
      simp only [applyOp, addTransition, hl]
      exact ⟨hk, hu, hs⟩
    | some tt =>
      simp only [applyOp, addTransition, hl]
      exact ⟨keysOk_set2 _ ⟨s.manager.nextId, f, t0, ty, jsOr d tt.defaultDuration⟩ hk,
        mapUPairUnique_set2 _ ⟨s.manager.nextId, f, t0, ty, jsOr d tt.defaultDuration⟩
          hk hu, hs⟩
  | mgrRemove c =>
    cases hl : mapLookup s.manager.transitions c with
    | none =>
      simp only [applyOp, removeTransition, hl]
      exact ⟨hk, hu, hs⟩
    | some t =>
      simp only [applyOp, removeTransition, hl]
      exact ⟨keysOk_delete _ _ (keysOk_delete _ _ hk),
        mapUPairUnique_delete _ _ (mapUPairUnique_delete _ _ hu), hs⟩

theorem inv_foldl (ops : List GraphOp) :
    ∀ s : Integration, InvState s → InvState (ops.foldl applyOp s) := by
  induction ops with
  | nil => exact fun s h => h
  | cons op rest ih => exact fun s h => ih (applyOp s op) (inv_applyOp s op h)

theorem inv_runOps (ops : List GraphOp) : InvState (runOps ops) := by
  refine inv_foldl ops integrationInit ⟨?_, ?_, ?_⟩
  · intro k t ht
    cases ht
  · intro k1 k2 t1 t2 h1 h2 hs
    cases h1
  · exact List.Pairwise.nil

/-- C6: starting from the empty graph, after any sequence of add and
remove operations (saveTransitionToStore, removeTransitionFromStore,
addTransition and removeTransition), no two distinct stored instances
share the same unordered endpoint pair: any two map values with the same
unordered pair are the same record, and the store list is pairwise
distinct in unordered pairs. -/
theorem c6_unordered_pair_unique (ops : List GraphOp) :
    mapUPairUnique (runOps ops).manager.transitions ∧
    storeUPairUnique (runOps ops).store.transitions :=
  ⟨(inv_runOps ops).2.1, (inv_runOps ops).2.2⟩

/-! Export/import roundtrip (C9). -/

theorem mapLookup_importStep (acc : TMap) (t : TransitionData) (k : String) :
    mapLookup (importStep acc t) k =
      if touches k t then some t else mapLookup acc k := by
  unfold importStep
  rw [mapLookup_set, mapLookup_set]
  by_cases h1 : k = t.toClipId
  · rw [if_pos h1, if_pos (show touches k t from Or.inl h1)]
  · rw [if_neg h1]
    by_cases h2 : k = t.fromClipId
    · rw [if_pos h2, if_pos (show touches k t from Or.inr h2)]
    · rw [if_neg h2, if_neg (show ¬ touches k t from fun hc => hc.elim h1 h2)]

theorem mapLookup_foldl_import (l : List TransitionData) (acc : TMap) (k : String) :
    mapLookup (l.foldl importStep acc) k =
      match lastTouch k l with
      | some u => some u
      | none => mapLookup acc k := by
  induction l generalizing acc with
  | nil => rfl
  | cons t rest ih =>
    rw [List.foldl_cons, ih]
    show _ = (match (match lastTouch k rest with
      | some u => some u
      | none => if touches k t then some t else none) with
      | some u => some u
      | none => mapLookup acc k)
    cases lastTouch k rest with
    | some u => rfl
    | none =>
      rw [mapLookup_importStep]
      by_cases ht : touches k t
      · rw [if_pos ht, if_pos ht]
      · rw [if_neg ht, if_neg ht]

theorem lastTouch_eq_none (k : String) (l : List TransitionData)
    (h : ∀ u ∈ l, ¬ touches k u) : lastTouch k l = none := by
  induction l with
  | nil => rfl
  | cons t rest ih =>
    show (match lastTouch k rest with
      | some u => some u
      | none => if touches k t then some t else none) = none
    rw [ih (fun u hu => h u (List.mem_cons_of_mem t hu)),
      if_neg (h t (List.mem_cons_self t rest))]

theorem lastTouch_eq_some (k : String) (l : List TransitionData)
    (t0 : TransitionData) (hex : ∃ u ∈ l, touches k u)
    (hall : ∀ u ∈ l, touches k u → u = t0) : lastTouch k l = some t0 := by
  induction l with
  | nil => obtain ⟨u, hu, _⟩ := hex; cases hu
  | cons t rest ih =>
    show (match lastTouch k rest with
      | some u => some u
      | none => if touches k t then some t else none) = some t0
    by_cases hr : ∃ u ∈ rest, touches k u
    · rw [ih hr (fun u hu htu => hall u (List.mem_cons_of_mem t hu) htu)]
    · push_neg at hr
      rw [lastTouch_eq_none k rest hr]
      have htt : touches k t := by
        obtain ⟨u, hu, htu⟩ := hex
        rcases List.mem_cons.mp hu with rfl | hmem
        · exact htu
        · exact absurd htu (hr u hmem)
      rw [if_pos htt, hall t (List.mem_cons_self t rest) htt]

theorem mem_of_mapLookup (m : TMap) (k : String) (t : TransitionData)
    (h : mapLookup m k = some t) : (k, t) ∈ m := by
  unfold mapLookup at h
  cases hf : m.find? (fun e => e.1 = k) with
  | none => rw [hf] at h; cases h
  | some e =>
    rw [hf] at h
    injection h with h
    have hmem := List.mem_of_find?_eq_some hf
    have hpred := List.find?_some hf
    have he1 : e.1 = k := by simpa using hpred
    have : e = (k, t) := Prod.ext he1 (by simpa using h)
    exact this ▸ hmem

/-- C9 amended: on a graph state without orphaned half-edges (every
instance readable under both endpoints, keys at endpoints), rebuilding
from the exported list restores exactly the original clip-to-instance
map, even though the export lists a doubly-keyed instance twice. -/
theorem c9_amended_roundtrip_orphan_free (m : Manager)
    (h1 : keysAtEndpoints m.transitions) (h2 : orphanFree m.transitions)
    (k : String) :
    mapLookup (importTransitions m (exportTransitions m)).transitions k =
      mapLookup m.transitions k := by
  show mapLookup ((exportTransitions m).foldl importStep []) k = _
  rw [mapLookup_foldl_import]
  cases hk : mapLookup m.transitions k with
  | some t0 =>
    have hmem : (k, t0) ∈ m.transitions := mem_of_mapLookup _ _ _ hk
    have htouch : touches k t0 := by
      rcases h1 (k, t0) hmem with h | h
      · exact Or.inr h
      · exact Or.inl h
    have hex : ∃ u ∈ exportTransitions m, touches k u :=
      ⟨t0, List.mem_map_of_mem (fun e => e.2) hmem, htouch⟩
    have hall : ∀ u ∈ exportTransitions m, touches k u → u = t0 := by
      intro u hu htu
      obtain ⟨e, he, heq⟩ := List.mem_map.mp hu
      rcases htu with h | h
      · have hget := (h2 e he).2
        rw [heq] at hget
        rw [← h] at hget
        rw [hget] at hk
        injection hk
      · have hget := (h2 e he).1
        rw [heq] at hget
        rw [← h] at hget
        rw [hget] at hk
        injection hk
    rw [lastTouch_eq_some k _ t0 hex hall]
  | none =>
    have hnone : ∀ u ∈ exportTransitions m, ¬ touches k u := by
      intro u hu htu
      obtain ⟨e, he, heq⟩ := List.mem_map.mp hu
      rcases htu with h | h
      · have hget := (h2 e he).2
        rw [heq] at hget
        rw [← h] at hget
        rw [hget] at hk
        cases hk
      · have hget := (h2 e he).1
        rw [heq] at hget
        rw [← h] at hget
        rw [hget] at hk
        cases hk
    rw [lastTouch_eq_none k _ hnone]
    rfl

/-- Witness for the amended C9 statement: the two-key state written by a
single add is restored at key A. -/
theorem c9_amended_witness :
    mapLookup (importTransitions
        ⟨[("A", ⟨0, "A", "B", "crossfade", 1⟩), ("B", ⟨0, "A", "B", "crossfade", 1⟩)], 1⟩
        (exportTransitions
          ⟨[("A", ⟨0, "A", "B", "crossfade", 1⟩), ("B", ⟨0, "A", "B", "crossfade", 1⟩)], 1⟩)).transitions
      "A" =
      mapLookup [("A", ⟨0, "A", "B", "crossfade", 1⟩), ("B", ⟨0, "A", "B", "crossfade", 1⟩)] "A" :=
  c9_amended_roundtrip_orphan_free
    ⟨[("A", ⟨0, "A", "B", "crossfade", 1⟩), ("B", ⟨0, "A", "B", "crossfade", 1⟩)], 1⟩
    (by decide) (by decide) "A"

/-- C9 counterexample: on the reachable state add(A,B), add(C,D), add(A,C)
the roundtrip reassigns key C: the original maps C to the (A,C) instance,
the restored map maps C to the (C,D) instance. -/
theorem c9_counterexample :
    mapLookup c9State.transitions "C" = some ⟨2, "A", "C", "crossfade", 1⟩ ∧
    mapLookup (importTransitions c9State (exportTransitions c9State)).transitions "C"
      = some ⟨1, "C", "D", "crossfade", 1⟩ ∧
    mapLookup (importTransitions c9State (exportTransitions c9State)).transitions "C"
      ≠ mapLookup c9State.transitions "C" := by
  decide

/-! Preview endpoint behaviour (C3). -/

theorem clampProgress_zero : clampProgress 0 = 0 := rfl

theorem clampProgress_one : clampProgress 1 = 1 := rfl

/-- The identity-transform viewport rectangle covers every viewport pixel. -/
theorem covFull (w h x y : ℚ) (hx0 : 0 ≤ x) (hxw : x < w) (hy0 : 0 ≤ y) (hyh : y < h) :
    rectCovers 1 1 0 0 0 0 w h x y :=
  ⟨by linarith, by linarith, by linarith, by linarith⟩

theorem evalPixel_crossfade_zero (w h x y : ℚ) (hx0 : 0 ≤ x) (hxw : x < w)
    (hy0 : 0 ≤ y) (hyh : y < h) :
    evalPixel (crossfadeCmds 0 w h) x y = pureFrom := by
  have hcov := covFull w h x y hx0 hxw hy0 hyh
  simp only [crossfadeCmds, evalPixel, List.foldl, step, applyFill, gfxInit,
    styleVec, styleAlpha]
  rw [if_pos hcov, if_pos hcov]
  simp [Color.scale, Color.add, pureFrom]

theorem evalPixel_crossfade_one (w h x y : ℚ) (hx0 : 0 ≤ x) (hxw : x < w)
    (hy0 : 0 ≤ y) (hyh : y < h) :
    evalPixel (crossfadeCmds 1 w h) x y = pureTo := by
  have hcov := covFull w h x y hx0 hxw hy0 hyh
  simp only [crossfadeCmds, evalPixel, List.foldl, step, applyFill, gfxInit,
    styleVec, styleAlpha]
  rw [if_pos hcov, if_pos hcov]
  simp [Color.scale, Color.add, pureTo]

/-- The endpoint behaviour of every type that draws the default
(crossfade) commands. -/
theorem rp_defaultFamily (ty : String) (w h x y : ℚ)
    (h0 : applyTransitionEffect ty 0 w h = crossfadeCmds (clampProgress 0) w h)
    (h1 : applyTransitionEffect ty 1 w h = crossfadeCmds (clampProgress 1) w h)
    (hx0 : 0 ≤ x) (hxw : x < w) (hy0 : 0 ≤ y) (hyh : y < h) :
    renderPixel ty 0 w h x y = pureFrom ∧ renderPixel ty 1 w h x y = pureTo := by
  constructor
  · show evalPixel (applyTransitionEffect ty 0 w h) x y = pureFrom
    rw [h0, clampProgress_zero]
    exact evalPixel_crossfade_zero w h x y hx0 hxw hy0 hyh
  · show evalPixel (applyTransitionEffect ty 1 w h) x y = pureTo
    rw [h1, clampProgress_one]
    exact evalPixel_crossfade_one w h x y hx0 hxw hy0 hyh

theorem rp_wipeLeft (w h x y : ℚ) (hx0 : 0 ≤ x) (hxw : x < w)
    (hy0 : 0 ≤ y) (hyh : y < h) :
    renderPixel "wipeLeft" 0 w h x y = pureFrom ∧
    renderPixel "wipeLeft" 1 w h x y = pureTo := by
  have hcov := covFull w h x y hx0 hxw hy0 hyh
  constructor
  · norm_num [renderPixel, applyTransitionEffect, clampProgress_zero]
    simp only [evalPixel, List.foldl, step, applyFill, gfxInit, styleVec, styleAlpha]
    rw [if_pos hcov]
    rw [if_neg (show ¬ rectCovers 1 1 0 0 w 0 0 h x y from
      fun hc => absurd hc.1 (by push_neg; linarith))]
    simp [Color.scale, Color.add, pureFrom]
  · norm_num [renderPixel, applyTransitionEffect, clampProgress_one]
    simp only [evalPixel, List.foldl, step, applyFill, gfxInit, styleVec, styleAlpha]
    rw [if_pos hcov, if_pos hcov]
    simp [Color.scale, Color.add, pureTo]

theorem rp_wipeRight (w h x y : ℚ) (hx0 : 0 ≤ x) (hxw : x < w)
    (hy0 : 0 ≤ y) (hyh : y < h) :
    renderPixel "wipeRight" 0 w h x y = pureFrom ∧
    renderPixel "wipeRight" 1 w h x y = pureTo := by
  have hcov := covFull w h x y hx0 hxw hy0 hyh
  constructor
  · norm_num [renderPixel, applyTransitionEffect, clampProgress_zero]
    simp only [evalPixel, List.foldl, step, applyFill, gfxInit, styleVec, styleAlpha]
    rw [if_pos hcov]
    rw [if_neg (show ¬ rectCovers 1 1 0 0 0 0 0 h x y from
      fun hc => absurd hc.2.1 (by push_neg; linarith))]
    simp [Color.scale, Color.add, pureFrom]
  · norm_num [renderPixel, applyTransitionEffect, clampProgress_one]
    simp only [evalPixel, List.foldl, step, applyFill, gfxInit, styleVec, styleAlpha]
    rw [if_pos hcov, if_pos hcov]
    simp [Color.scale, Color.add, pureTo]

theorem rp_wipeUp (w h x y : ℚ) (hx0 : 0 ≤ x) (hxw : x < w)
    (hy0 : 0 ≤ y) (hyh : y < h) :
    renderPixel "wipeUp" 0 w h x y = pureFrom ∧
    renderPixel "wipeUp" 1 w h x y = pureTo := by
  have hcov := covFull w h x y hx0 hxw hy0 hyh
  constructor
  · norm_num [renderPixel, applyTransitionEffect, clampProgress_zero]
    simp only [evalPixel, List.foldl, step, applyFill, gfxInit, styleVec, styleAlpha]
    rw [if_pos hcov]
    rw [if_neg (show ¬ rectCovers 1 1 0 0 0 h w 0 x y from
      fun hc => absurd hc.2.2.1 (by push_neg; linarith))]
    simp [Color.scale, Color.add, pureFrom]
  · norm_num [renderPixel, applyTransitionEffect, clampProgress_one]
    simp only [evalPixel, List.foldl, step, applyFill, gfxInit, styleVec, styleAlpha]
    rw [if_pos hcov, if_pos hcov]
    simp [Color.scale, Color.add, pureTo]

theorem rp_wipeDown (w h x y : ℚ) (hx0 : 0 ≤ x) (hxw : x < w)
    (hy0 : 0 ≤ y) (hyh : y < h) :
    renderPixel "wipeDown" 0 w h x y = pureFrom ∧
    renderPixel "wipeDown" 1 w h x y = pureTo := by
  have hcov := covFull w h x y hx0 hxw hy0 hyh
  constructor
  · norm_num [renderPixel, applyTransitionEffect, clampProgress_zero]
    simp only [evalPixel, List.foldl, step, applyFill, gfxInit, styleVec, styleAlpha]
    rw [if_pos hcov]
    rw [if_neg (show ¬ rectCovers 1 1 0 0 0 0 w 0 x y from
      fun hc => absurd hc.2.2.2 (by push_neg; linarith))]
    simp [Color.scale, Color.add, pureFrom]
  · norm_num [renderPixel, applyTransitionEffect, clampProgress_one]
    simp only [evalPixel, List.foldl, step, applyFill, gfxInit, styleVec, styleAlpha]
    rw [if_pos hcov, if_pos hcov]
    simp [Color.scale, Color.add, pureTo]

theorem rp_fadeToBlack (w h x y : ℚ) (hx0 : 0 ≤ x) (hxw : x < w)
    (hy0 : 0 ≤ y) (hyh : y < h) :
    renderPixel "fadeToBlack" 0 w h x y = pureFrom ∧
    renderPixel "fadeToBlack" 1 w h x y = pureTo := by
  have hcov := covFull w h x y hx0 hxw hy0 hyh
  constructor
  · norm_num [renderPixel, applyTransitionEffect, clampProgress_zero]
    simp only [evalPixel, List.foldl, step, applyFill, gfxInit, styleVec, styleAlpha]
    rw [if_pos hcov, if_pos hcov]
    simp [Color.scale, Color.add, pureFrom]
  · norm_num [renderPixel, applyTransitionEffect, clampProgress_one]
    simp only [evalPixel, List.foldl, step, applyFill, gfxInit, styleVec, styleAlpha]
    rw [if_pos hcov, if_pos hcov]
    simp [Color.scale, Color.add, pureTo]

theorem rp_fadeToWhite (w h x y : ℚ) (hx0 : 0 ≤ x) (hxw : x < w)
    (hy0 : 0 ≤ y) (hyh : y < h) :
    renderPixel "fadeToWhite" 0 w h x y = pureFrom ∧
    renderPixel "fadeToWhite" 1 w h x y = pureTo := by
  have hcov := covFull w h x y hx0 hxw hy0 hyh
  constructor
  · norm_num [renderPixel, applyTransitionEffect, clampProgress_zero]
    simp only [evalPixel, List.foldl, step, applyFill, gfxInit, styleVec, styleAlpha]
    rw [if_pos hcov, if_pos hcov]
    simp [Color.scale, Color.add, pureFrom]
  · norm_num [renderPixel, applyTransitionEffect, clampProgress_one]
    simp only [evalPixel, List.foldl, step, applyFill, gfxInit, styleVec, styleAlpha]
    rw [if_pos hcov, if_pos hcov]
    simp [Color.scale, Color.add, pureTo]

theorem rp_slideLeft (w h x y : ℚ) (hx0 : 0 ≤ x) (hxw : x < w)
    (hy0 : 0 ≤ y) (hyh : y < h) :
    renderPixel "slideLeft" 0 w h x y = pureFrom ∧
    renderPixel "slideLeft" 1 w h x y = pureTo := by
  have hcov := covFull w h x y hx0 hxw hy0 hyh
  constructor
  · norm_num [renderPixel, applyTransitionEffect, clampProgress_zero]
    simp only [evalPixel, List.foldl, step, applyFill, gfxInit, styleVec, styleAlpha]
    norm_num
    rw [if_pos hcov]
    rw [if_neg (show ¬ rectCovers 1 1 w 0 0 0 w h x y from
      fun hc => absurd hc.1 (by push_neg; linarith))]
    simp [Color.scale, Color.add, pureFrom]
  · norm_num [renderPixel, applyTransitionEffect, clampProgress_one]
    simp only [evalPixel, List.foldl, step, applyFill, gfxInit, styleVec, styleAlpha]
    norm_num
    rw [if_neg (show ¬ rectCovers 1 1 (-w) 0 0 0 w h x y from
      fun hc => absurd hc.2.1 (by push_neg; linarith))]
    rw [if_pos hcov]
    simp [Color.scale, Color.add, pureTo]

theorem rp_slideRight (w h x y : ℚ) (hx0 : 0 ≤ x) (hxw : x < w)
    (hy0 : 0 ≤ y) (hyh : y < h) :
    renderPixel "slideRight" 0 w h x y = pureFrom ∧
    renderPixel "slideRight" 1 w h x y = pureTo := by
  have hcov := covFull w h x y hx0 hxw hy0 hyh
  constructor
  · norm_num [renderPixel, applyTransitionEffect, clampProgress_zero]
    simp only [evalPixel, List.foldl, step, applyFill, gfxInit, styleVec, styleAlpha]
    norm_num
    rw [if_pos hcov]
    rw [if_neg (show ¬ rectCovers 1 1 (-w) 0 0 0 w h x y from
      fun hc => absurd hc.2.1 (by push_neg; linarith))]
    simp [Color.scale, Color.add, pureFrom]
  · norm_num [renderPixel, applyTransitionEffect, clampProgress_one]
    simp only [evalPixel, List.foldl, step, applyFill, gfxInit, styleVec, styleAlpha]
    norm_num
    rw [if_neg (show ¬ rectCovers 1 1 w 0 0 0 w h x y from
      fun hc => absurd hc.1 (by push_neg; linarith))]
    rw [if_pos hcov]
    simp [Color.scale, Color.add, pureTo]

theorem rp_zoomIn (w h x y : ℚ) (hx0 : 0 ≤ x) (hxw : x < w)
    (hy0 : 0 ≤ y) (hyh : y < h) :
    renderPixel "zoomIn" 0 w h x y = pureFrom ∧
    renderPixel "zoomIn" 1 w h x y = pureTo := by
  have hcov := covFull w h x y hx0 hxw hy0 hyh
  constructor
  · norm_num [renderPixel, applyTransitionEffect, clampProgress_zero]
    simp only [evalPixel, List.foldl, step, applyFill, gfxInit, styleVec, styleAlpha]
    norm_num
    rw [if_pos hcov]
    split <;> simp [Color.scale, Color.add, pureFrom]
  · norm_num [renderPixel, applyTransitionEffect, clampProgress_one]
    simp only [evalPixel, List.foldl, step, applyFill, gfxInit, styleVec, styleAlpha]
    norm_num
    rw [if_pos hcov, if_pos hcov]
    simp [Color.scale, Color.add, pureTo]

/-- C3 counterexample: circleOpen is in the catalog, yet at progress 0 the
rendered composite at pixel (0,0) of a 2 by 2 surface is purely the "to"
region, not the "from" region: the final full-frame "to" fill paints over
the circle-masked "from" layer. -/
theorem c3_counterexample :
    "circleOpen" ∈ catalogIds ∧
    renderPixel "circleOpen" 0 2 2 0 0 = pureTo ∧
    renderPixel "circleOpen" 0 2 2 0 0 ≠ pureFrom := by
  have hmain : renderPixel "circleOpen" 0 2 2 0 0 = pureTo := by
    norm_num [renderPixel, applyTransitionEffect, clampProgress_zero]
    simp only [evalPixel, List.foldl, step, applyFill, gfxInit, styleVec, styleAlpha,
      pathCovers]
    norm_num
    rw [if_pos (show rectCovers 1 1 0 0 0 0 2 2 0 0 from by norm_num [rectCovers])]
    rw [if_neg (show ¬ diskCovers 1 1 0 0 1 1 0 0 0 from by norm_num [diskCovers])]
    rw [if_pos (show rectCovers 1 1 0 0 0 0 2 2 0 0 from by norm_num [rectCovers])]
    simp [Color.scale, Color.add, pureTo]
  refine ⟨by decide, hmain, ?_⟩
  rw [hmain]
  decide

/-- C3 amended: for every catalog type except zoomOut, circleOpen and
circleClose, and every surface size, rendering at progress 0 leaves every
viewport pixel purely the "from" region and rendering at progress 1 leaves
it purely the "to" region. zoomOut keeps a 10 percent scaled "from" layer
at progress 1, circleOpen shows only the "to" region at progress 0, and
circleClose shows the "to" region at progress 0 and a blank surface at
progress 1. -/
theorem c3_amended_endpoints (ty : String) (w h x y : ℚ) (hmem : ty ∈ catalogIds)
    (hz : ty ≠ "zoomOut") (hco : ty ≠ "circleOpen") (hcc : ty ≠ "circleClose")
    (hx0 : 0 ≤ x) (hxw : x < w) (hy0 : 0 ≤ y) (hyh : y < h) :
    renderPixel ty 0 w h x y = pureFrom ∧ renderPixel ty 1 w h x y = pureTo := by
  simp only [catalogIds, TRANSITION_TYPES, List.map_cons, List.map_nil,
    List.mem_cons, List.not_mem_nil, or_false] at hmem
  rcases hmem with rfl | rfl | rfl | rfl | rfl | rfl | rfl | rfl | rfl | rfl | rfl |
    rfl | rfl | rfl | rfl | rfl | rfl | rfl | rfl
  · exact rp_defaultFamily _ w h x y rfl rfl hx0 hxw hy0 hyh
  · exact rp_fadeToBlack w h x y hx0 hxw hy0 hyh
  · exact rp_fadeToWhite w h x y hx0 hxw hy0 hyh
  · exact rp_wipeLeft w h x y hx0 hxw hy0 hyh
  · exact rp_wipeRight w h x y hx0 hxw hy0 hyh
  · exact rp_wipeUp w h x y hx0 hxw hy0 hyh
  · exact rp_wipeDown w h x y hx0 hxw hy0 hyh
  · exact rp_slideLeft w h x y hx0 hxw hy0 hyh
  · exact rp_slideRight w h x y hx0 hxw hy0 hyh
  · exact rp_defaultFamily _ w h x y rfl rfl hx0 hxw hy0 hyh
  · exact rp_defaultFamily _ w h x y rfl rfl hx0 hxw hy0 hyh
  · exact rp_zoomIn w h x y hx0 hxw hy0 hyh
  · exact absurd rfl hz
  · exact rp_defaultFamily _ w h x y rfl rfl hx0 hxw hy0 hyh
  · exact rp_defaultFamily _ w h x y rfl rfl hx0 hxw hy0 hyh
  · exact rp_defaultFamily _ w h x y rfl rfl hx0 hxw hy0 hyh
  · exact absurd rfl hco
  · exact absurd rfl hcc
  · exact rp_defaultFamily _ w h x y rfl rfl hx0 hxw hy0 hyh

/-- Witness for the amended C3 statement at crossfade on a 2 by 2 surface. -/
theorem c3_amended_witness :
    renderPixel "crossfade" 0 2 2 1 1 = pureFrom ∧
    renderPixel "crossfade" 1 2 2 1 1 = pureTo :=
  c3_amended_endpoints "crossfade" 2 2 1 1 (by decide) (by decide) (by decide)
    (by decide) (by norm_num) (by norm_num) (by norm_num) (by norm_num)

end CaptureKit
